import Mathlib

/-!
Verification development for the 4sale electronics scraping repository.

Shallow embedding of the repository source (src/DetailsScraper.py,
src/CardScraper.py, src/hierarchial_code_main.py, src/normal_code_main.py).
Network and browser effects are modelled by explicit oracles: a function
giving, for each page index or retry attempt, the outcome the browser would
have produced.  All definitions mirror the Python control flow; machine
integers do not occur (Python has arbitrary-precision integers).
-/

namespace Scraper

/-! ## Date and time model

Python naive datetimes.  Fixed-length arithmetic (timedelta) is modelled by
converting the civil date to a day number, shifting by seconds and
converting back; calendar month arithmetic (dateutil relativedelta) is
modelled on the (year, month, day) fields with day clamped to the length of
the resulting month, exactly as relativedelta normalizes.
-/

structure DateTime where
  year : Int
  month : Int
  day : Int
  hour : Int
  minute : Int
  second : Int
  deriving DecidableEq, Repr

def isLeap (y : Int) : Bool :=
  (y % 4 == 0 && y % 100 != 0) || (y % 400 == 0)

def daysInMonth (y m : Int) : Int :=
  if m = 2 then (if isLeap y then 29 else 28)
  else if m = 4 ∨ m = 6 ∨ m = 9 ∨ m = 11 then 30
  else 31

/-- Day number of a civil date (days since 1970-01-01, proleptic Gregorian). -/
def daysFromCivil (y m d : Int) : Int :=
  let yAdj := if m ≤ 2 then y - 1 else y
  let era := Int.fdiv yAdj 400
  let yoe := yAdj - era * 400
  let mp := if m > 2 then m - 3 else m + 9
  let doy := Int.fdiv (153 * mp + 2) 5 + d - 1
  let doe := yoe * 365 + Int.fdiv yoe 4 - Int.fdiv yoe 100 + doy
  era * 146097 + doe - 719468

/-- Civil date (year, month, day) of a day number. -/
def civilFromDays (z : Int) : Int × Int × Int :=
  let z2 := z + 719468
  let era := Int.fdiv z2 146097
  let doe := z2 - era * 146097
  let yoe := Int.fdiv (doe - Int.fdiv doe 1460 + Int.fdiv doe 36524 - Int.fdiv doe 146096) 365
  let y := yoe + era * 400
  let doy := doe - (365 * yoe + Int.fdiv yoe 4 - Int.fdiv yoe 100)
  let mp := Int.fdiv (5 * doy + 2) 153
  let d := doy - Int.fdiv (153 * mp + 2) 5 + 1
  let m := if mp < 10 then mp + 3 else mp - 9
  (if m ≤ 2 then y + 1 else y, m, d)

def secondsOfDay (t : DateTime) : Int :=
  t.hour * 3600 + t.minute * 60 + t.second

/-- Python: current_time - timedelta(seconds = n) (fixed-length delta). -/
def subSecondsDT (t : DateTime) (n : Nat) : DateTime :=
  let total := daysFromCivil t.year t.month t.day * 86400 + secondsOfDay t - (n : Int)
  let dys := Int.fdiv total 86400
  let sod := Int.emod total 86400
  let c := civilFromDays dys
  ⟨c.1, c.2.1, c.2.2, Int.fdiv sod 3600, Int.fdiv (Int.emod sod 3600) 60, Int.emod sod 60⟩

/-- Python: current_time - relativedelta(months = n).  Calendar-aware month
subtraction: the month index is shifted and the day-of-month is clamped to
the length of the resulting month (relativedelta normalization). -/
def subMonthsDT (t : DateTime) (n : Nat) : DateTime :=
  let tm := t.year * 12 + (t.month - 1) - (n : Int)
  let y := Int.fdiv tm 12
  let m := Int.emod tm 12 + 1
  ⟨y, m, min t.day (daysInMonth y m), t.hour, t.minute, t.second⟩

/-- A datetime whose date fields denote an actual calendar date. -/
def ValidDate (t : DateTime) : Prop :=
  1 ≤ t.month ∧ t.month ≤ 12 ∧ 1 ≤ t.day ∧ t.day ≤ daysInMonth t.year t.month

/-! ### strftime formatting -/

def padNat (w n : Nat) : String :=
  let r := Nat.repr n
  String.mk (List.replicate (w - r.length) '0') ++ r

def padInt (w : Nat) (n : Int) : String := padNat w n.toNat

/-- Python strftime with format both date and time, as used at
DetailsScraper.py line 151. -/
def formatDateTime (t : DateTime) : String :=
  padInt 4 t.year ++ "-" ++ padInt 2 t.month ++ "-" ++ padInt 2 t.day ++ " " ++
  padInt 2 t.hour ++ ":" ++ padInt 2 t.minute ++ ":" ++ padInt 2 t.second

/-- Python strftime date component only, as used for the target date
(yesterday) in both main scripts. -/
def formatYMD (y m d : Int) : String :=
  padInt 4 y ++ "-" ++ padInt 2 m ++ "-" ++ padInt 2 d

/-! ## Relative-time parsing (DetailsScraper.scrape_publish_date)

Model of the regex search at DetailsScraper.py line 129:
a run of digits, at least one whitespace, then the first unit alternative
(case-insensitively) prefixing the remaining text, tried at each start
position from the left.  Alternatives in the source order of the pattern.
-/

def pyIsWs (c : Char) : Bool :=
  c = ' ' ∨ c = '\t' ∨ c = '\n' ∨ c = '\x0d' ∨ c = '\x0b' ∨ c = '\x0c'

def unitTokens : List String :=
  ["second", "minute", "hour", "day", "month", "شهر", "ثانية", "دقيقة", "ساعة", "يوم"]

def lowerChars (cs : List Char) : List Char := cs.map Char.toLower

/-- First alternative of the unit group that matches (case-insensitively) at
the current position; the result is already lowercased, as the code applies
lower() to the matched group. -/
def findUnit (cs : List Char) : Option String :=
  unitTokens.find? (fun tok => tok.data.isPrefixOf (lowerChars cs))

def digitsVal (ds : List Char) : Nat :=
  ds.foldl (fun a c => a * 10 + (c.toNat - 48)) 0

/-- Try to match the whole pattern starting exactly at the given position. -/
def matchFrom (cs : List Char) : Option (Nat × String) :=
  let ds := cs.takeWhile Char.isDigit
  if ds.isEmpty then none
  else
    let r1 := cs.drop ds.length
    let ws := r1.takeWhile pyIsWs
    if ws.isEmpty then none
    else (findUnit (r1.drop ws.length)).map (fun u => (digitsVal ds, u))

/-- re.search: leftmost start position at which the pattern matches. -/
def reSearch : List Char → Option (Nat × String)
  | [] => none
  | c :: cs =>
    match matchFrom (c :: cs) with
    | some r => some r
    | none => reSearch cs

/-- Result of scrape_publish_date: a normalized timestamp, or one of the two
sentinel strings the source returns on failure. -/
inductive PubResult where
  | ok (t : DateTime)
  | invalidRelativeTime
  | unsupportedUnit
  deriving DecidableEq, Repr

/-- DetailsScraper.scrape_publish_date (lines 128 to 151), with the capture
instant (datetime.now() in the source) passed explicitly. -/
def scrape_publish_date (relative_time : String) (current_time : DateTime) : PubResult :=
  match reSearch relative_time.data with
  | none => .invalidRelativeTime
  | some (number, unit) =>
    if unit = "second" ∨ unit = "ثانية" then .ok (subSecondsDT current_time number)
    else if unit = "minute" ∨ unit = "دقيقة" then .ok (subSecondsDT current_time (number * 60))
    else if unit = "hour" ∨ unit = "ساعة" then .ok (subSecondsDT current_time (number * 3600))
    else if unit = "day" ∨ unit = "يوم" then .ok (subSecondsDT current_time (number * 86400))
    else if unit = "month" ∨ unit = "شهر" then .ok (subMonthsDT current_time number)
    else .unsupportedUnit

/-- The string the source actually hands to callers (the ok case goes
through strftime, the failure cases are literal sentinel strings). -/
def pubResultString : PubResult → String
  | .ok t => formatDateTime t
  | .invalidRelativeTime => "Invalid Relative Time"
  | .unsupportedUnit => "Unsupported time unit found."

/-! ## Record types

Card mirrors the dict appended at DetailsScraper.py lines 46 to 65;
MoreDetails mirrors the dict returned at lines 280 to 295.  Every value read
through dict.get(key) on a possibly-empty dict is an Option.
-/

structure MoreDetails where
  id : Option String
  description : Option String
  image : Option String
  price : Option String
  address : Option String
  additional_details : Option (List String)
  specifications : Option (List (String × String))
  views_no : Option String
  submitter : Option String
  ads : Option String
  membership : Option String
  phone : Option String
  relative_date : Option String
  date_published : Option String
  deriving DecidableEq, Repr

/-- The empty dict returned after retry exhaustion: every get yields None. -/
def emptyMoreDetails : MoreDetails :=
  ⟨none, none, none, none, none, none, none, none, none, none, none, none, none, none⟩

/-- Every field of a MoreDetails record is null. -/
def AllFieldsNone (m : MoreDetails) : Prop :=
  m.id = none ∧ m.description = none ∧ m.image = none ∧ m.price = none ∧
  m.address = none ∧ m.additional_details = none ∧ m.specifications = none ∧
  m.views_no = none ∧ m.submitter = none ∧ m.ads = none ∧ m.membership = none ∧
  m.phone = none ∧ m.relative_date = none ∧ m.date_published = none

structure Card where
  id : Option String
  date_published : Option String
  relative_date : Option String
  pin : String
  type : Option String
  title : Option String
  description : Option String
  link : Option String
  image : Option String
  price : Option String
  address : Option String
  additional_details : Option (List String)
  specifications : Option (List (String × String))
  views_no : Option String
  submitter : Option String
  ads : Option String
  membership : Option String
  phone : Option String
  deriving DecidableEq, Repr

/-- A card distinguished only by its link, for concrete examples. -/
def mkCard (s : String) : Card :=
  ⟨none, none, none, "Not Pinned", none, none, none, some s, none, none, none,
   none, none, none, none, none, none, none⟩

/-! ## DetailsScraping.scrape_more_details (lines 258 to 303)

The network outcome of each of the (hardcoded) three attempts is an oracle
value: either an exception or a fully built record.  The source returns the
record of the first successful attempt immediately; when the last attempt
also raises it returns the empty dict.
-/

/-- Number of attempts the per-listing resolver makes; the literal 3 of
range(3) at DetailsScraper.py line 259 (it coincides with the default of the
retries constructor argument, which this method does not consult). -/
def maxRetries : Nat := 3

/-- Result of scrape_more_details together with how many attempts ran. -/
def scrape_more_details {ε : Type} (att : Nat → Except ε MoreDetails) : MoreDetails × Nat :=
  match att 0 with
  | .ok r => (r, 1)
  | .error _ =>
    match att 1 with
    | .ok r => (r, 2)
    | .error _ =>
      match att 2 with
      | .ok r => (r, 3)
      | .error _ => (emptyMoreDetails, 3)

/-! ### The actual attempt body (DetailsScraper.py lines 260 to 295)

Outcomes of the sub-extractors are supplied by an environment.  The body
first awaits scrape_id, then evaluates self.scrape_description — an
attribute that exists nowhere on the class, so Python raises AttributeError
at that point of every attempt; the remaining extractions and the return of
the built record are unreachable.
-/

inductive PyErr where
  | attributeError
  | other
  deriving DecidableEq, Repr

structure DetailEnv where
  scrape_id : Except PyErr (Option String)
  scrape_image : Except PyErr (Option String)
  scrape_price : Except PyErr String
  scrape_address : Except PyErr String
  scrape_additionalDetails_list : Except PyErr (List String)
  scrape_specifications : Except PyErr (List (String × String))
  scrape_views_no : Except PyErr (Option String)
  scrape_submitter : Except PyErr (Option String × String × String)
  scrape_phone_number : Except PyErr (Option String)
  scrape_relative_date : Except PyErr (Option String)

/-- One attempt of scrape_more_details as written in the source.  The call
await self.scrape_description(page) at line 267 is modelled by a raise of
AttributeError: the method is not defined anywhere in the program. -/
def scrapeMoreDetailsBody (env : DetailEnv) (now : DateTime) : Except PyErr MoreDetails := do
  let id ← env.scrape_id
  let _description ← (Except.error PyErr.attributeError : Except PyErr (Option String))
  let image ← env.scrape_image
  let price ← env.scrape_price
  let address ← env.scrape_address
  let additional ← env.scrape_additionalDetails_list
  let specs ← env.scrape_specifications
  let views ← env.scrape_views_no
  let submitter ← env.scrape_submitter
  let phone ← env.scrape_phone_number
  let relative ← env.scrape_relative_date
  let published := relative.map (fun r => pubResultString (scrape_publish_date r now))
  pure ⟨id, _description, image, some price, some address, some additional,
        some specs, views, submitter.1, some submitter.2.1, some submitter.2.2,
        phone, relative, published⟩

/-! ## DetailsScraping.get_card_details (lines 19 to 78)

The cards accumulator is created once, before the retry loop; each attempt
appends the entries it managed to build before succeeding or raising, and a
successful attempt breaks out of the loop.  The oracle gives, per attempt,
the list of entries appended and whether the attempt completed without an
exception.
-/

def getCardDetailsGo (oracle : Nat → List Card × Bool) :
    Nat → Nat → List Card → List Card
  | 0, _, acc => acc
  | fuel + 1, attempt, acc =>
    let step := oracle attempt
    let acc2 := acc ++ step.1
    if step.2 then acc2 else getCardDetailsGo oracle fuel (attempt + 1) acc2

def get_card_details (retries : Nat) (oracle : Nat → List Card × Bool) : List Card :=
  getCardDetailsGo oracle retries 0 []

/-- Number of attempts the loop executes: attempts run until the first
success, capped by the retry bound. -/
def attemptsRun (oracle : Nat → List Card × Bool) : Nat → Nat → Nat
  | 0, _ => 0
  | fuel + 1, attempt =>
    if (oracle attempt).2 then 1 else 1 + attemptsRun oracle fuel (attempt + 1)

/-! ## HierarchialMainScraper.scrape_brands_and_types, page loop
(hierarchial_code_main.py lines 127 to 139)

For page_num in 1..N the loop fetches the page; an exception breaks, an
empty card list breaks, otherwise the cards are appended.  The oracle gives
each page's outcome; the model also records which page numbers were
requested, in order.
-/

def isStopPage (r : Except Unit (List Card)) : Bool :=
  match r with
  | .error _ => true
  | .ok [] => true
  | .ok (_ :: _) => false

def pageItems (r : Except Unit (List Card)) : List Card :=
  match r with
  | .ok l => l
  | .error _ => []

def fetchPagesGo (pages : Nat → Except Unit (List Card)) :
    Nat → Nat → List Card × List Nat
  | 0, _ => ([], [])
  | fuel + 1, p =>
    match pages p with
    | .error _ => ([], [p])
    | .ok [] => ([], [p])
    | .ok l =>
      let r := fetchPagesGo pages fuel (p + 1)
      (l ++ r.1, p :: r.2)

/-- The per-brand pagination loop: accumulated cards and the list of page
indices requested, in request order. -/
def scrape_brand_pages (pages : Nat → Except Unit (List Card)) (n : Nat) :
    List Card × List Nat :=
  fetchPagesGo pages n 1

/-! ## Date-window filtering

hierarchial_code_main.py lines 169 to 172 and normal_code_main.py lines
53 to 56: keep a card iff date_published is truthy and its first
whitespace-separated token equals the target date string.  Python raises
IndexError when a truthy date string consists only of whitespace
(split() yields no tokens); the model therefore runs in Except.
-/

def pySplitWsAux : List Char → List Char → List String
  | [], acc => if acc.isEmpty then [] else [String.mk acc.reverse]
  | c :: cs, acc =>
    if pyIsWs c then
      if acc.isEmpty then pySplitWsAux cs []
      else String.mk acc.reverse :: pySplitWsAux cs []
    else pySplitWsAux cs (c :: acc)

/-- Python str.split() with no arguments: split on whitespace runs. -/
def pySplitWs (s : String) : List String := pySplitWsAux s.data []

/-- The comprehension guard: card.get('date_published') and
card['date_published'].split()[0] == yesterday.  An error is the IndexError
of [0] on an empty split. -/
def dateFilterStep (target : String) (c : Card) : Except Unit Bool :=
  match c.date_published with
  | none => .ok false
  | some s =>
    if s = "" then .ok false
    else
      match (pySplitWs s).head? with
      | some tok => .ok (tok == target)
      | none => .error ()

/-- The list comprehension filtering cards to the target date. -/
def filterYesterdayCards (target : String) (cars : List Card) :
    Except Unit (List Card) :=
  cars.foldlM
    (fun acc c => do
      let b ← dateFilterStep target c
      pure (if b then acc ++ [c] else acc))
    []

/-- The selection predicate the comprehension implements on well-formed
records: the publish-date string exists and its leading whitespace token
equals the target date. -/
def keepsCard (target : String) (c : Card) : Bool :=
  match c.date_published with
  | none => false
  | some s =>
    match (pySplitWs s).head? with
    | some tok => tok == target
    | none => false

/-- A record whose publish-date field will not make the comprehension raise:
either absent, or empty (falsy), or holding at least one whitespace token.
Every value the pipeline itself writes into date_published satisfies this. -/
def cardDateOk (c : Card) : Bool :=
  match c.date_published with
  | none => true
  | some s => s == "" || ((pySplitWs s).head?).isSome

/-! ## HierarchialMainScraper.save_to_excel (lines 151 to 189)

One sheet per brand that has at least one card published on the target
date; the sheet name is the brand title restricted to alphanumeric
characters and cut to 31; no qualifying brand (or empty input, or a filter
exception) yields no file.  The model returns the sheets that would be
written, or none when no file is produced.
-/

structure BrandEntry where
  brand_title : String
  brand_link : String
  available_cars : List Card
  deriving Repr

/-- Python str.isalnum is Unicode-aware; the model covers the ASCII
alphanumerics together with the Arabic letter and digit ranges that occur in
this program's brand titles. -/
def pyIsAlnum (c : Char) : Bool :=
  c.isAlphanum ∨ (0x621 ≤ c.toNat ∧ c.toNat ≤ 0x64A) ∨ (0x660 ≤ c.toNat ∧ c.toNat ≤ 0x669)

/-- Sheet-name sanitization at line 176: keep alphanumerics, cut to 31. -/
def sanitizeSheetName (title : String) : String :=
  String.mk ((title.data.filter pyIsAlnum).take 31)

def save_to_excel (target : String) (brand_data : List BrandEntry) :
    Option (List (String × List Card)) :=
  if brand_data.isEmpty then none
  else
    match brand_data.foldlM
        (fun sheets b => do
          let q ← filterYesterdayCards target b.available_cars
          pure (if q.isEmpty then sheets
                else sheets ++ [(sanitizeSheetName b.brand_title, q)]))
        ([] : List (String × List Card)) with
    | .error _ => none
    | .ok [] => none
    | .ok sheets => some sheets

/-! ## CardScraper.scrape_brands_and_types, link construction (lines 23 to 39)

Anchors found on the category page carry a title and an href attribute
(either possibly absent).  A falsy href (absent or empty) skips the anchor;
an href starting with a slash is prefixed with scheme and host extracted
from the category URL by split with maxsplit 3; any other href is used
verbatim.  The same logic appears at hierarchial_code_main.py lines 115
to 121.
-/

structure Anchor where
  title : Option String
  href : Option String
  deriving DecidableEq, Repr

/-- Python s.split(sep, maxsplit) on a single-character separator. -/
def pySplitLim (sep : Char) : Nat → List Char → List (List Char)
  | 0, cs => [cs]
  | maxs + 1, cs =>
    let pre := cs.takeWhile (fun c => c ≠ sep)
    if pre.length = cs.length then [cs]
    else pre :: pySplitLim sep maxs (cs.drop (pre.length + 1))

/-- url.split('/', 3)[0] + '//' + url.split('/', 3)[2]. -/
def baseUrlOf (url : String) : String :=
  let parts := pySplitLim '/' 3 url.data
  String.mk (parts.getD 0 []) ++ "//" ++ String.mk (parts.getD 2 [])

/-- Python s.startswith(pre), on the underlying character lists. -/
def pyStartsWith (s pre : String) : Bool := pre.data.isPrefixOf s.data

/-- The full brand link the source builds for one anchor href. -/
def fullBrandLink (url href : String) : String :=
  if pyStartsWith href "/" then baseUrlOf url ++ href else href

/-- The discoverer loop: for each anchor with a truthy href, the pair of its
title and the constructed brand URL, in page order; no anchors (or no
truthy hrefs) gives the empty list rather than an error. -/
def scrape_brands_and_types (url : String) : List Anchor → List (Option String × String)
  | [] => []
  | a :: rest =>
    match a.href with
    | none => scrape_brands_and_types url rest
    | some h =>
      if h = "" then scrape_brands_and_types url rest
      else (a.title, fullBrandLink url h) :: scrape_brands_and_types url rest

/-- Spec-worded brand URL rule, for comparison with the source: an absolute
URL is used verbatim, anything else is joined to scheme and host of the
category URL.  Absolute means carrying an explicit scheme. -/
def isAbsoluteUrl (s : String) : Bool :=
  pyStartsWith s "http://" || pyStartsWith s "https://"

/-- The brand URL as the claim states it (spec wording, not the source). -/
def claimedBrandUrl (url href : String) : String :=
  if isAbsoluteUrl href then href else baseUrlOf url ++ href

/-- The discoverer as the amended claim describes it, anchor by anchor. -/
def amendedDiscoverer (url : String) (anchors : List Anchor) :
    List (Option String × String) :=
  anchors.filterMap (fun a =>
    a.href.bind (fun h =>
      if h = "" then none
      else some (a.title, if pyStartsWith h "/" then baseUrlOf url ++ h else h)))

/-! ## ElectronicsMainScraper.scrape_all_electronics, chunking
(normal_code_main.py lines 152 to 160)

The comprehension list(items)[i : i + chunk_size] for i in
range(0, len(items), chunk_size) slices the ordered category list into
consecutive chunks, processed by a sequential for loop.
-/

/-- Chunk size set in the constructor (normal_code_main.py line 17). -/
def chunk_size : Nat := 2

def chunksOf (c : Nat) : List α → List (List α)
  | [] => []
  | x :: xs => (x :: xs.take (c - 1)) :: chunksOf c (xs.drop (c - 1))
termination_by l => l.length
decreasing_by
  simp only [List.length_cons, List.length_drop]
  omega

/-- The order in which the sequential chunk loop visits the categories. -/
def processedOrder (c : Nat) (l : List α) : List α := (chunksOf c l).flatten

/-! ## Derived characterizations and concrete test inputs -/

/-- The sheets the export should contain: one per brand with at least one
record on the target date, named by the sanitized title, holding exactly
the filtered records. -/
def qualSheets (target : String) (bd : List BrandEntry) : List (String × List Card) :=
  (bd.filter (fun b => !(b.available_cars.filter (keepsCard target)).isEmpty)).map
    (fun b => (sanitizeSheetName b.brand_title, b.available_cars.filter (keepsCard target)))

/-- Concrete cards, distinguished by their link. -/
def exCard (k : Nat) : Card := mkCard (Nat.repr k)

/-- Page oracle for the pagination stop-rule scenario: pages yield 3 items,
2 items, 0 items, 5 items. -/
def exPages1 : Nat → Except Unit (List Card) := fun p =>
  if p = 1 then .ok [exCard 1, exCard 2, exCard 3]
  else if p = 2 then .ok [exCard 4, exCard 5]
  else if p = 3 then .ok []
  else .ok [exCard 6, exCard 7, exCard 8, exCard 9, exCard 10]

/-- Attempt oracle: the first attempt appends one card and fails, the
second appends the same card again and succeeds. -/
def dupOracle : Nat → List Card × Bool := fun a => ([mkCard "x"], a == 1)

/-- Attempt oracle: attempts 0 and 1 fail, attempt 2 succeeds. -/
def dupOracle2 : Nat → List Card × Bool := fun a => ([mkCard "y"], a == 2)

/-- A record some attempt of the detail resolver could produce. -/
def sampleMD : MoreDetails :=
  { emptyMoreDetails with id := some "12345", price := some "20 KWD", phone := some "9999" }

/-- Per-listing attempt oracle failing twice, then succeeding. -/
def attOracleA : Nat → Except Unit MoreDetails :=
  fun k => if k < 2 then .error () else .ok sampleMD

/-- The record the resolver builds when the relative phrase is unparseable:
the publish-date field holds the parse-failure sentinel. -/
def fooBarMD : MoreDetails :=
  { emptyMoreDetails with
    relative_date := some "foo bar",
    date_published := some (pubResultString .invalidRelativeTime) }

/-- A listing record carrying the parse-failure sentinel as publish date. -/
def invalidDateCard : Card :=
  { mkCard "L" with date_published := some (pubResultString .invalidRelativeTime) }

def cardA : Card := { mkCard "A" with date_published := some "2025-10-11 08:00:00" }
def cardB : Card := mkCard "B"
def cardC : Card := { mkCard "C" with date_published := some "Invalid Relative Time" }
def cardD : Card := { mkCard "D" with date_published := some "2025-10-11 09:30:00" }
def cardE : Card := { mkCard "E" with date_published := some "2025-10-10 12:00:00" }

def exCars : List Card := [cardA, cardB, cardC, cardD, cardE]

def catUrl : String := "https://www.q84sale.com/ar/electronics/cameras"

def exAnchors : List Anchor :=
  [⟨some "t", some "/x/y"⟩, ⟨some "u", some "https://z.example/q"⟩,
   ⟨some "v", some "foo"⟩, ⟨some "w", none⟩, ⟨some "s", some ""⟩]

def exBrands : List BrandEntry :=
  [⟨"Canon EOS-5!", "", [cardA, cardB]⟩, ⟨"No Qual Brand", "", [cardE]⟩]

/-! ## Theorems -/

lemma chunksOf_nil {α : Type} (c : Nat) : chunksOf c ([] : List α) = [] := by
  simp [chunksOf]

lemma chunksOf_cons {α : Type} (c : Nat) (x : α) (xs : List α) :
    chunksOf c (x :: xs) = (x :: xs.take (c - 1)) :: chunksOf c (xs.drop (c - 1)) := by
  simp [chunksOf]

lemma chunksOf_eq_nil_iff {α : Type} (c : Nat) (l : List α) :
    chunksOf c l = [] ↔ l = [] := by
  cases l with
  | nil => simp [chunksOf_nil]
  | cons x xs => simp [chunksOf_cons]

lemma flatten_chunksOf {α : Type} (c : Nat) (_hc : 0 < c) :
    ∀ l : List α, (chunksOf c l).flatten = l := by
  have key : ∀ (n : Nat) (l : List α), l.length ≤ n → (chunksOf c l).flatten = l := by
    intro n
    induction n with
    | zero =>
      intro l hl
      rw [List.length_eq_zero.mp (Nat.le_zero.mp hl), chunksOf_nil, List.flatten_nil]
    | succ n ih =>
      intro l hl
      cases l with
      | nil => simp [chunksOf_nil]
      | cons x xs =>
        simp only [List.length_cons] at hl
        rw [chunksOf_cons, List.flatten_cons,
          ih _ (by simp only [List.length_drop]; omega)]
        simp [List.take_append_drop]
  exact fun l => key l.length l (Nat.le_refl _)

lemma chunksOf_dropLast_length {α : Type} (c : Nat) (hc : 0 < c) :
    ∀ (l : List α), ∀ ch ∈ (chunksOf c l).dropLast, ch.length = c := by
  have key : ∀ (n : Nat) (l : List α), l.length ≤ n →
      ∀ ch ∈ (chunksOf c l).dropLast, ch.length = c := by
    intro n
    induction n with
    | zero =>
      intro l hl
      rw [List.length_eq_zero.mp (Nat.le_zero.mp hl), chunksOf_nil]
      simp
    | succ n ih =>
      intro l hl
      cases l with
      | nil => simp [chunksOf_nil]
      | cons x xs =>
        simp only [List.length_cons] at hl
        rw [chunksOf_cons]
        cases hrest : chunksOf c (xs.drop (c - 1)) with
        | nil => simp
        | cons r rs =>
          intro ch hch
          rw [List.dropLast_cons₂] at hch
          rcases List.mem_cons.mp hch with rfl | hmem
          · have hne : xs.drop (c - 1) ≠ [] := by
              intro h0
              rw [h0, chunksOf_nil] at hrest
              exact List.noConfusion hrest
            have hlen : c - 1 < xs.length := by
              by_contra hle
              exact hne (List.drop_eq_nil_iff.mpr (by omega))
            simp only [List.length_cons, List.length_take]
            omega
          · rw [← hrest] at hmem
            exact ih _ (by simp only [List.length_drop]; omega) ch hmem
  exact fun l => key l.length l (Nat.le_refl _)

lemma chunksOf_mem_length {α : Type} (c : Nat) (hc : 0 < c) :
    ∀ (l : List α), ∀ ch ∈ chunksOf c l, ch ≠ [] ∧ ch.length ≤ c := by
  have key : ∀ (n : Nat) (l : List α), l.length ≤ n →
      ∀ ch ∈ chunksOf c l, ch ≠ [] ∧ ch.length ≤ c := by
    intro n
    induction n with
    | zero =>
      intro l hl
      rw [List.length_eq_zero.mp (Nat.le_zero.mp hl), chunksOf_nil]
      simp
    | succ n ih =>
      intro l hl
      cases l with
      | nil => simp [chunksOf_nil]
      | cons x xs =>
        simp only [List.length_cons] at hl
        rw [chunksOf_cons]
        intro ch hch
        rcases List.mem_cons.mp hch with rfl | hmem
        · refine ⟨by simp, ?_⟩
          simp only [List.length_cons, List.length_take]
          omega
        · exact ih _ (by simp only [List.length_drop]; omega) ch hmem
  exact fun l => key l.length l (Nat.le_refl _)

/-- Claim C9: the scheduler partitions the ordered category list into
consecutive chunks of size c (2 in the code): every chunk except possibly
the last has exactly c categories, no chunk is empty or exceeds c, the
concatenation of all chunks equals the original list (so each chunk
preserves the original order and the sequential chunk loop visits the
categories in their original order). -/
theorem claim_C9 {α : Type} (c : Nat) (l : List α) (hc : 0 < c) :
    (chunksOf c l).flatten = l ∧
    (∀ ch ∈ (chunksOf c l).dropLast, ch.length = c) ∧
    (∀ ch ∈ chunksOf c l, ch ≠ [] ∧ ch.length ≤ c) ∧
    processedOrder c l = l ∧
    chunk_size = 2 :=
  ⟨flatten_chunksOf c hc l, chunksOf_dropLast_length c hc l,
   chunksOf_mem_length c hc l, flatten_chunksOf c hc l, rfl⟩

/-- Witness for C9 at the code's chunk size 2 and a five-element list. -/
theorem claim_C9_witness :
    (chunksOf 2 [10, 20, 30, 40, 50]).flatten = [10, 20, 30, 40, 50] ∧
    chunksOf 2 [10, 20, 30, 40, 50] = [[10, 20], [30, 40], [50]] :=
  ⟨(claim_C9 2 [10, 20, 30, 40, 50] (by decide)).1, by
    simp [chunksOf_cons, chunksOf_nil]⟩

/-- Claim C4: the detail resolver makes at most maxRetries (3, the default)
attempts; the record of the first successful attempt is returned with no
further attempts; when every attempt fails it returns the present-but-empty
record with all fields null rather than propagating the error. -/
theorem claim_C4 {ε : Type} (att : Nat → Except ε MoreDetails) :
    (∀ k r, k < maxRetries → att k = .ok r →
      (∀ j, j < k → ∃ e, att j = .error e) →
      scrape_more_details att = (r, k + 1)) ∧
    ((∀ j, j < maxRetries → ∃ e, att j = .error e) →
      scrape_more_details att = (emptyMoreDetails, maxRetries) ∧
      AllFieldsNone (scrape_more_details att).1) ∧
    (scrape_more_details att).2 ≤ maxRetries := by
  refine ⟨?_, ?_, ?_⟩
  · intro k r hk hok hfail
    have hk3 : k < 3 := hk
    interval_cases k
    · simp [scrape_more_details, hok]
    · obtain ⟨e0, h0⟩ := hfail 0 (by omega)
      simp [scrape_more_details, h0, hok]
    · obtain ⟨e0, h0⟩ := hfail 0 (by omega)
      obtain ⟨e1, h1⟩ := hfail 1 (by omega)
      simp [scrape_more_details, h0, h1, hok]
  · intro hfail
    obtain ⟨e0, h0⟩ := hfail 0 (by decide)
    obtain ⟨e1, h1⟩ := hfail 1 (by decide)
    obtain ⟨e2, h2⟩ := hfail 2 (by decide)
    refine ⟨by simp [scrape_more_details, h0, h1, h2, maxRetries], ?_⟩
    simp only [scrape_more_details, h0, h1, h2]
    exact ⟨rfl, rfl, rfl, rfl, rfl, rfl, rfl, rfl, rfl, rfl, rfl, rfl, rfl, rfl⟩
  · rcases h0 : att 0 with e0 | r0
    · rcases h1 : att 1 with e1 | r1
      · rcases h2 : att 2 with e2 | r2
        · simp [scrape_more_details, h0, h1, h2, maxRetries]
        · simp [scrape_more_details, h0, h1, h2, maxRetries]
      · simp [scrape_more_details, h0, h1, maxRetries]
    · simp [scrape_more_details, h0, maxRetries]

/-- Witness for C4: a source failing attempts 0 and 1 and succeeding on
attempt 2 yields the successful record after exactly three attempts. -/
theorem claim_C4_witness :
    scrape_more_details attOracleA = (sampleMD, 3) :=
  (claim_C4 attOracleA).1 2 sampleMD (by decide)
    (by rfl)
    (fun j hj => by
      interval_cases j
      · exact ⟨(), rfl⟩
      · exact ⟨(), rfl⟩)

lemma scrapeMoreDetailsBody_isError (env : DetailEnv) (now : DateTime) :
    ∃ e, scrapeMoreDetailsBody env now = .error e := by
  rcases h : env.scrape_id with e | v
  · exact ⟨e, by simp [scrapeMoreDetailsBody, h, Bind.bind, Except.bind]⟩
  · exact ⟨.attributeError, by simp [scrapeMoreDetailsBody, h, Bind.bind, Except.bind]⟩

/-- Claim C10: because every attempt of scrape_more_details evaluates the
nowhere-defined scrape_description and so raises, the per-listing detail
extraction always exhausts its three attempts and returns the record with
every field null, for every listing link (that is, every environment of
sub-extractor outcomes). -/
theorem claim_C10 (envs : Nat → DetailEnv) (now : DateTime) :
    (∀ k, ∃ e, scrapeMoreDetailsBody (envs k) now = .error e) ∧
    scrape_more_details (fun k => scrapeMoreDetailsBody (envs k) now) =
      (emptyMoreDetails, maxRetries) ∧
    AllFieldsNone emptyMoreDetails := by
  refine ⟨fun k => scrapeMoreDetailsBody_isError (envs k) now, ?_, ?_⟩
  · obtain ⟨e0, h0⟩ := scrapeMoreDetailsBody_isError (envs 0) now
    obtain ⟨e1, h1⟩ := scrapeMoreDetailsBody_isError (envs 1) now
    obtain ⟨e2, h2⟩ := scrapeMoreDetailsBody_isError (envs 2) now
    simp [scrape_more_details, h0, h1, h2, maxRetries]
  · exact ⟨rfl, rfl, rfl, rfl, rfl, rfl, rfl, rfl, rfl, rfl, rfl, rfl, rfl, rfl⟩

lemma fetchPagesGo_stop_case (pages : Nat → Except Unit (List Card)) (fuel p : Nat)
    (h : isStopPage (pages p) = true) :
    fetchPagesGo pages (fuel + 1) p = ([], [p]) := by
  rcases hp : pages p with e | l
  · simp [fetchPagesGo, hp]
  · cases l with
    | nil => simp [fetchPagesGo, hp]
    | cons x xs => simp [isStopPage, hp] at h

lemma fetchPagesGo_ok_case (pages : Nat → Except Unit (List Card)) (fuel p : Nat)
    (x : Card) (xs : List Card) (h : pages p = .ok (x :: xs)) :
    fetchPagesGo pages (fuel + 1) p =
      ((x :: xs) ++ (fetchPagesGo pages fuel (p + 1)).1,
       p :: (fetchPagesGo pages fuel (p + 1)).2) := by
  simp [fetchPagesGo, h]

lemma fetchPagesGo_all_ok (pages : Nat → Except Unit (List Card)) :
    ∀ (fuel p : Nat), (∀ i, p ≤ i → i < p + fuel → isStopPage (pages i) = false) →
    fetchPagesGo pages fuel p =
      (((List.range' p fuel).map (fun i => pageItems (pages i))).flatten,
       List.range' p fuel) := by
  intro fuel
  induction fuel with
  | zero => intro p _; simp [fetchPagesGo]
  | succ n ih =>
    intro p h
    have hp : isStopPage (pages p) = false := h p (Nat.le_refl _) (by omega)
    rcases hpp : pages p with e | l
    · simp [isStopPage, hpp] at hp
    · cases l with
      | nil => simp [isStopPage, hpp] at hp
      | cons x xs =>
        rw [fetchPagesGo_ok_case pages n p x xs hpp,
          ih (p + 1) (fun i hi1 hi2 => h i (by omega) (by omega)),
          List.range'_succ]
        simp [hpp, pageItems]

lemma fetchPagesGo_stopped (pages : Nat → Except Unit (List Card)) :
    ∀ (k fuel p : Nat), k < fuel → isStopPage (pages (p + k)) = true →
    (∀ j, j < k → isStopPage (pages (p + j)) = false) →
    fetchPagesGo pages fuel p =
      (((List.range' p k).map (fun i => pageItems (pages i))).flatten,
       List.range' p (k + 1)) := by
  intro k
  induction k with
  | zero =>
    intro fuel p hk hstop _
    obtain ⟨m, rfl⟩ := Nat.exists_eq_succ_of_ne_zero (by omega : fuel ≠ 0)
    rw [fetchPagesGo_stop_case pages m p (by simpa using hstop)]
    simp [List.range'_succ]
  | succ k ih =>
    intro fuel p hk hstop hbefore
    obtain ⟨m, rfl⟩ := Nat.exists_eq_succ_of_ne_zero (by omega : fuel ≠ 0)
    have hp : isStopPage (pages p) = false := by simpa using hbefore 0 (by omega)
    rcases hpp : pages p with e | l
    · simp [isStopPage, hpp] at hp
    · cases l with
      | nil => simp [isStopPage, hpp] at hp
      | cons x xs =>
        rw [fetchPagesGo_ok_case pages m p x xs hpp,
          ih m (p + 1) (by omega)
            (by rw [show p + 1 + k = p + (k + 1) by omega]; exact hstop)
            (fun j hj => by
              rw [show p + 1 + j = p + (j + 1) by omega]
              exact hbefore (j + 1) (by omega))]
        simp [List.range'_succ, hpp, pageItems]

/-- Claim C1: for a brand with page-depth limit N the pages are requested
in increasing order starting at 1 (the requested-page list is an initial
range); when no page in range stops, all N pages are fetched and all their
items concatenated; when page 1+k is the first to yield zero items or an
error, exactly pages 1..1+k are requested (none later) and the items of the
earlier pages are returned.  In particular, for pages yielding 3, 2, 0 and
5 items the fetcher returns exactly the five items of the first two pages,
requests pages 1, 2, 3 only, and never requests page 4. -/
theorem claim_C1 (pages : Nat → Except Unit (List Card)) (N : Nat) :
    ((∀ i, 1 ≤ i → i < 1 + N → isStopPage (pages i) = false) →
      scrape_brand_pages pages N =
        (((List.range' 1 N).map (fun i => pageItems (pages i))).flatten,
         List.range' 1 N)) ∧
    (∀ k, k < N → isStopPage (pages (1 + k)) = true →
      (∀ j, j < k → isStopPage (pages (1 + j)) = false) →
      scrape_brand_pages pages N =
        (((List.range' 1 k).map (fun i => pageItems (pages i))).flatten,
         List.range' 1 (k + 1)) ∧
      (∀ q ∈ (scrape_brand_pages pages N).2, q ≤ 1 + k)) ∧
    (scrape_brand_pages exPages1 4 =
      ([exCard 1, exCard 2, exCard 3, exCard 4, exCard 5], [1, 2, 3]) ∧
     4 ∉ (scrape_brand_pages exPages1 4).2) := by
  refine ⟨?_, ?_, by decide, by decide⟩
  · intro h
    exact fetchPagesGo_all_ok pages N 1 h
  · intro k hk hstop hbefore
    have heq := fetchPagesGo_stopped pages k N 1 hk hstop hbefore
    refine ⟨heq, ?_⟩
    intro q hq
    rw [scrape_brand_pages, heq] at hq
    have := List.mem_range'_1.mp hq
    omega

/-- Witness for C1: the stop-rule branch applied to the concrete page
oracle with items 3, 2, 0, 5 and depth 4, stopping after page 3. -/
theorem claim_C1_witness :
    scrape_brand_pages exPages1 4 =
      (((List.range' 1 2).map (fun i => pageItems (exPages1 i))).flatten,
       List.range' 1 3) :=
  ((claim_C1 exPages1 4).2.1 2 (by decide) (by decide)
    (fun j hj => by interval_cases j <;> decide)).1

lemma getCardDetailsGo_spec (oracle : Nat → List Card × Bool) :
    ∀ (fuel att : Nat) (acc : List Card),
    getCardDetailsGo oracle fuel att acc =
      acc ++ ((List.range' att (attemptsRun oracle fuel att)).map
        (fun i => (oracle i).1)).flatten := by
  intro fuel
  induction fuel with
  | zero => intro att acc; simp [getCardDetailsGo, attemptsRun]
  | succ n ih =>
    intro att acc
    by_cases hs : (oracle att).2
    · simp [getCardDetailsGo, attemptsRun, hs, List.range'_succ]
    · rw [show getCardDetailsGo oracle (n + 1) att acc =
          getCardDetailsGo oracle n (att + 1) (acc ++ (oracle att).1) by
            simp [getCardDetailsGo, hs],
        ih (att + 1) (acc ++ (oracle att).1),
        show attemptsRun oracle (n + 1) att = 1 + attemptsRun oracle n (att + 1) by
          simp [attemptsRun, hs],
        Nat.add_comm 1 (attemptsRun oracle n (att + 1)), List.range'_succ]
      simp

lemma attemptsRun_le (oracle : Nat → List Card × Bool) :
    ∀ (fuel att : Nat), attemptsRun oracle fuel att ≤ fuel := by
  intro fuel
  induction fuel with
  | zero => intro att; simp [attemptsRun]
  | succ n ih =>
    intro att
    by_cases hs : (oracle att).2
    · simp [attemptsRun, hs]
    · rw [Bool.not_eq_true] at hs
      simp only [attemptsRun, hs, Bool.false_eq_true, if_false]
      have := ih (att + 1)
      omega

lemma attemptsRun_before_fail (oracle : Nat → List Card × Bool) :
    ∀ (fuel att i : Nat), att ≤ i → i + 1 < att + attemptsRun oracle fuel att →
    (oracle i).2 = false := by
  intro fuel
  induction fuel with
  | zero => intro att i _ hi; simp [attemptsRun] at hi; omega
  | succ n ih =>
    intro att i hle hi
    by_cases hs : (oracle att).2
    · simp [attemptsRun, hs] at hi; omega
    · rcases Nat.eq_or_lt_of_le hle with rfl | hlt
      · simpa using hs
      · rw [Bool.not_eq_true] at hs
        simp only [attemptsRun, hs, Bool.false_eq_true, if_false] at hi
        exact ih (att + 1) i hlt (by omega)

/-- Counterexample to claim C5: an attempt appends one card and fails, the
next attempt appends the same card and succeeds; the returned list holds
the card twice, not once, so entries appended by the failed attempt were
kept into the returned list. -/
theorem claim_C5_counterexample :
    get_card_details 3 dupOracle = [mkCard "x", mkCard "x"] ∧
    (dupOracle 1).2 = true ∧
    (dupOracle 1).1 = [mkCard "x"] ∧
    (get_card_details 3 dupOracle).count (mkCard "x") = 2 ∧
    get_card_details 3 dupOracle ≠ (dupOracle 1).1 := by
  refine ⟨by decide, by decide, by decide, by decide, by decide⟩

/-- Claim C5 as amended: a failed attempt's appended entries are retained,
not discarded; the returned list is the concatenation of the entries
appended by every executed attempt (all attempts up to and including the
first successful one, or all retries when none succeeds), so a listing
collected by both a failed and the later successful attempt appears more
than once. -/
theorem claim_C5 (retries : Nat) (oracle : Nat → List Card × Bool) :
    get_card_details retries oracle =
      ((List.range (attemptsRun oracle retries 0)).map
        (fun i => (oracle i).1)).flatten ∧
    attemptsRun oracle retries 0 ≤ retries ∧
    (∀ i, i + 1 < attemptsRun oracle retries 0 → (oracle i).2 = false) := by
  refine ⟨?_, attemptsRun_le oracle retries 0, ?_⟩
  · rw [get_card_details, getCardDetailsGo_spec oracle retries 0 [],
      List.range_eq_range']
    simp
  · intro i hi
    exact attemptsRun_before_fail oracle retries 0 i (Nat.zero_le _) (by omega)

/-- Witness for C5: the amended characterization evaluated on the duplicate
oracle, and the before-success attempts of a three-failure oracle. -/
theorem claim_C5_witness :
    get_card_details 3 dupOracle = [mkCard "x", mkCard "x"] ∧
    (dupOracle2 0).2 = false :=
  ⟨(claim_C5 3 dupOracle).1.trans (by decide),
   (claim_C5 3 dupOracle2).2.2 0 (by decide)⟩

lemma okBind {ε α β : Type} (a : α) (g : α → Except ε β) :
    (Except.ok a >>= g : Except ε β) = g a := rfl

lemma pureBind {ε α β : Type} (a : α) (g : α → Except ε β) :
    (pure a >>= g : Except ε β) = g a := rfl

lemma dateFilterStep_ok (target : String) (c : Card) (h : cardDateOk c = true) :
    dateFilterStep target c = .ok (keepsCard target c) := by
  rcases hd : c.date_published with _ | s
  · simp [dateFilterStep, keepsCard, hd]
  · by_cases hs : s = ""
    · subst hs
      simp [dateFilterStep, keepsCard, hd, pySplitWs, pySplitWsAux]
    · rcases ht : (pySplitWs s).head? with _ | tok
      · exfalso
        simp [cardDateOk, hd, hs, ht] at h
      · simp [dateFilterStep, keepsCard, hd, hs, ht]

lemma filterYesterday_go (target : String) :
    ∀ (cars : List Card) (acc : List Card), (∀ c ∈ cars, cardDateOk c = true) →
    List.foldlM
      (fun acc c => do
        let b ← dateFilterStep target c
        pure (if b then acc ++ [c] else acc))
      acc cars = .ok (acc ++ cars.filter (keepsCard target)) := by
  intro cars
  induction cars with
  | nil =>
    intro acc _
    rw [List.foldlM_nil, List.filter_nil, List.append_nil]
    rfl
  | cons c cs ih =>
    intro acc h
    rw [List.foldlM_cons, dateFilterStep_ok target c (h c (List.mem_cons_self c cs)),
      okBind, pureBind]
    by_cases hk : keepsCard target c
    · rw [if_pos hk, ih (acc ++ [c]) (fun x hx => h x (List.mem_cons_of_mem c hx))]
      simp [List.filter_cons, hk]
    · rw [if_neg hk, ih acc (fun x hx => h x (List.mem_cons_of_mem c hx))]
      simp only [List.filter_cons, Bool.not_eq_true] at hk ⊢
      rw [hk]
      simp

lemma filterYesterday_ok (target : String) (cars : List Card)
    (h : ∀ c ∈ cars, cardDateOk c = true) :
    filterYesterdayCards target cars = .ok (cars.filter (keepsCard target)) := by
  rw [filterYesterdayCards, filterYesterday_go target cars [] h]
  simp

/-- Claim C6: on every collection whose publish-date fields are of the
shapes the pipeline produces, the date-window filter returns exactly the
records whose publish-date string has leading date token equal to the
target, as a sublist of the input (same relative order); records with an
absent publish date are excluded; the selected records are the input
records themselves (selection only, no mutation). -/
theorem claim_C6 (target : String) (cars : List Card)
    (h : ∀ c ∈ cars, cardDateOk c = true) :
    filterYesterdayCards target cars = .ok (cars.filter (keepsCard target)) ∧
    (cars.filter (keepsCard target)).Sublist cars ∧
    (∀ c ∈ cars.filter (keepsCard target), c ∈ cars ∧ keepsCard target c = true) ∧
    (∀ c : Card, c.date_published = none → keepsCard target c = false) := by
  refine ⟨filterYesterday_ok target cars h, List.filter_sublist cars, ?_, ?_⟩
  · intro c hc
    exact List.mem_filter.mp hc
  · intro c hc
    simp [keepsCard, hc]

/-- Witness for C6 on a concrete record list: the two records dated
2025-10-11 are kept in order; the dateless, sentinel-dated and
differently-dated records are dropped. -/
theorem claim_C6_witness :
    filterYesterdayCards "2025-10-11" exCars = .ok [cardA, cardD] :=
  (claim_C6 "2025-10-11" exCars (by decide)).1.trans rfl

lemma padNat_length_ge (w n : Nat) : w ≤ (padNat w n).length := by
  have hmk : (String.mk (List.replicate (w - (Nat.repr n).length) '0')).length
      = w - (Nat.repr n).length := by
    show (List.replicate (w - (Nat.repr n).length) '0').length = _
    exact List.length_replicate _ _
  unfold padNat
  rw [String.length_append, hmk]
  omega

lemma formatYMD_length_ge (y m d : Int) : 10 ≤ (formatYMD y m d).length := by
  unfold formatYMD padInt
  rw [String.length_append, String.length_append, String.length_append,
    String.length_append]
  have h4 := padNat_length_ge 4 y.toNat
  have h2a := padNat_length_ge 2 m.toNat
  have h2b := padNat_length_ge 2 d.toNat
  have hdash : ("-" : String).length = 1 := rfl
  omega

lemma invalid_ne_formatYMD (y m d : Int) :
    ("Invalid" : String) ≠ formatYMD y m d := by
  intro he
  have hlen := congrArg String.length he
  have h7 : ("Invalid" : String).length = 7 := rfl
  have h10 := formatYMD_length_ge y m d
  omega

/-- Claim C3: a phrase with no recognizable number-unit pattern makes the
normalizer return the distinguished parse-failure result (never a normal
timestamp, and, the function being total, never an unhandled fault); a
record carrying the resulting sentinel string is excluded by the
date-window filter for every calendar target date; and an attempt whose
relative phrase is unparseable still counts as a successful attempt, so the
resolver performs no retry for it. -/
theorem claim_C3 (t : DateTime) :
    scrape_publish_date "foo bar" t = .invalidRelativeTime ∧
    (∀ u : DateTime, PubResult.invalidRelativeTime ≠ PubResult.ok u) ∧
    (∀ y m d : Int, dateFilterStep (formatYMD y m d) invalidDateCard = .ok false) ∧
    scrape_more_details (fun _ => (.ok fooBarMD : Except Unit MoreDetails)) =
      (fooBarMD, 1) := by
  refine ⟨rfl, fun u he => PubResult.noConfusion he, ?_, rfl⟩
  intro y m d
  have hstep : dateFilterStep (formatYMD y m d) invalidDateCard =
      .ok (("Invalid" : String) == formatYMD y m d) := rfl
  rw [hstep, beq_eq_false_iff_ne.mpr (invalid_ne_formatYMD y m d)]

/-- Witness for C3 at a concrete capture instant and a concrete target
date: the unparseable phrase yields the parse-failure result, and the
sentinel-dated record fails the window predicate for 2025-10-11. -/
theorem claim_C3_witness :
    scrape_publish_date "foo bar" (DateTime.mk 2025 10 12 0 0 0) =
      .invalidRelativeTime ∧
    dateFilterStep (formatYMD 2025 10 11) invalidDateCard = .ok false :=
  ⟨(claim_C3 (DateTime.mk 2025 10 12 0 0 0)).1,
   (claim_C3 (DateTime.mk 2025 10 12 0 0 0)).2.2.1 2025 10 11⟩

lemma absolute_not_slash (h : String) (ha : isAbsoluteUrl h = true) :
    pyStartsWith h "/" = false := by
  rw [isAbsoluteUrl, Bool.or_eq_true, pyStartsWith, pyStartsWith,
    List.isPrefixOf_iff_prefix, List.isPrefixOf_iff_prefix] at ha
  rw [pyStartsWith, show ("/" : String).data = ['/'] from rfl]
  rcases ha with ⟨t, ht⟩ | ⟨t, ht⟩ <;> rw [← ht] <;> rfl

/-- Counterexample to claim C7: for the category URL of the cameras page
and an anchor whose href is the relative, non-slash string foo, the claim
predicts the scheme-and-host join while the code uses the href verbatim;
the two URLs differ. -/
theorem claim_C7_counterexample :
    scrape_brands_and_types catUrl [⟨some "brand", some "foo"⟩] =
      [(some "brand", "foo")] ∧
    isAbsoluteUrl "foo" = false ∧
    claimedBrandUrl catUrl "foo" = "https://www.q84sale.comfoo" ∧
    ("foo" : String) ≠ "https://www.q84sale.comfoo" := by
  exact ⟨rfl, rfl, by decide, by decide⟩

/-- Claim C7 as amended: an href starting with a slash is prefixed with the
scheme and host split out of the category URL, and any other non-empty href
is used verbatim (in particular an absolute URL is used verbatim, since it
cannot start with a slash); anchors without a truthy href are skipped; a
page with no anchors yields the empty list, not an error. -/
theorem claim_C7 (url : String) (anchors : List Anchor) :
    scrape_brands_and_types url anchors = amendedDiscoverer url anchors ∧
    (∀ h : String, isAbsoluteUrl h = true → fullBrandLink url h = h) ∧
    scrape_brands_and_types url [] = [] := by
  refine ⟨?_, ?_, rfl⟩
  · induction anchors with
    | nil => rfl
    | cons a rest ih =>
      rcases ha : a.href with _ | hr
      · simp only [scrape_brands_and_types, amendedDiscoverer, List.filterMap_cons,
          ha, Option.bind]
        exact ih
      · by_cases he : hr = ""
        · subst he
          simp only [scrape_brands_and_types, amendedDiscoverer, List.filterMap_cons,
            ha, Option.bind, if_pos]
          exact ih
        · simp only [scrape_brands_and_types, amendedDiscoverer, List.filterMap_cons,
            ha, Option.bind, if_neg he, fullBrandLink]
          exact congrArg _ ih
  · intro h ha
    rw [fullBrandLink, absolute_not_slash h ha]
    simp

/-- Witness for C7: the amended discoverer agrees with the source on a
mixed anchor list, and an absolute href is kept verbatim. -/
theorem claim_C7_witness :
    scrape_brands_and_types catUrl exAnchors = amendedDiscoverer catUrl exAnchors ∧
    fullBrandLink catUrl "https://z.example/q" = "https://z.example/q" :=
  ⟨(claim_C7 catUrl exAnchors).1,
   (claim_C7 catUrl exAnchors).2.1 "https://z.example/q" (by decide)⟩

lemma sanitize_length (title : String) : (sanitizeSheetName title).length ≤ 31 := by
  show ((title.data.filter pyIsAlnum).take 31).length ≤ 31
  rw [List.length_take]
  omega

lemma sanitize_chars (title : String) :
    ∀ ch ∈ (sanitizeSheetName title).data, pyIsAlnum ch = true := by
  intro ch hch
  have hch2 : ch ∈ (title.data.filter pyIsAlnum).take 31 := hch
  exact List.of_mem_filter (List.mem_of_mem_take hch2)

lemma saveFold (target : String) :
    ∀ (bd : List BrandEntry) (acc : List (String × List Card)),
    (∀ b ∈ bd, ∀ c ∈ b.available_cars, cardDateOk c = true) →
    List.foldlM
      (fun sheets b => do
        let q ← filterYesterdayCards target b.available_cars
        pure (if q.isEmpty then sheets
              else sheets ++ [(sanitizeSheetName b.brand_title, q)]))
      acc bd = .ok (acc ++ qualSheets target bd) := by
  intro bd
  induction bd with
  | nil =>
    intro acc _
    rw [List.foldlM_nil]
    show Except.ok acc = _
    rw [qualSheets]
    simp
  | cons b bs ih =>
    intro acc h
    rw [List.foldlM_cons,
      filterYesterday_ok target b.available_cars (h b (List.mem_cons_self b bs)),
      okBind, pureBind]
    by_cases hq : (b.available_cars.filter (keepsCard target)).isEmpty
    · rw [if_pos hq, ih acc (fun x hx => h x (List.mem_cons_of_mem b hx))]
      have hqs : qualSheets target (b :: bs) = qualSheets target bs := by
        rw [qualSheets, qualSheets, List.filter_cons, hq]
        simp
      rw [hqs]
    · rw [if_neg hq, ih _ (fun x hx => h x (List.mem_cons_of_mem b hx))]
      rw [Bool.not_eq_true] at hq
      have hqs : qualSheets target (b :: bs) =
          (sanitizeSheetName b.brand_title, b.available_cars.filter (keepsCard target))
            :: qualSheets target bs := by
        rw [qualSheets, qualSheets, List.filter_cons, hq]
        simp
      rw [hqs]
      simp

/-- Claim C8: on well-formed records, the category export contains exactly
one sheet per brand entry with at least one record on the target date, the
sheet holding exactly that brand's filtered records under a name that is
the brand title restricted to alphanumeric characters and cut to at most 31
characters; when no brand has a qualifying record, no file is produced. -/
theorem claim_C8 (target : String) (bd : List BrandEntry)
    (h : ∀ b ∈ bd, ∀ c ∈ b.available_cars, cardDateOk c = true) :
    save_to_excel target bd =
      (if (qualSheets target bd).isEmpty then none
       else some (qualSheets target bd)) ∧
    qualSheets target bd =
      (bd.filter (fun b => !(b.available_cars.filter (keepsCard target)).isEmpty)).map
        (fun b => (sanitizeSheetName b.brand_title,
                   b.available_cars.filter (keepsCard target))) ∧
    (∀ s ∈ qualSheets target bd,
      s.1.length ≤ 31 ∧ ∀ ch ∈ s.1.data, pyIsAlnum ch = true) ∧
    ((∀ b ∈ bd, b.available_cars.filter (keepsCard target) = []) →
      save_to_excel target bd = none) := by
  have hmain : save_to_excel target bd =
      (if (qualSheets target bd).isEmpty then none
       else some (qualSheets target bd)) := by
    rw [save_to_excel]
    by_cases hbd : bd.isEmpty
    · rw [if_pos hbd]
      have : bd = [] := List.isEmpty_iff.mp hbd
      subst this
      rw [qualSheets]
      simp
    · rw [if_neg hbd, saveFold target bd [] h, List.nil_append]
      cases hq : qualSheets target bd with
      | nil => simp
      | cons s ss => simp
  refine ⟨hmain, rfl, ?_, ?_⟩
  · intro s hs
    obtain ⟨b, _, hb⟩ := List.mem_map.mp hs
    refine ⟨?_, ?_⟩
    · rw [← hb]
      exact sanitize_length b.brand_title
    · rw [← hb]
      exact sanitize_chars b.brand_title
  · intro hall
    rw [hmain]
    have hq : qualSheets target bd = [] := by
      rw [qualSheets, List.map_eq_nil_iff, List.filter_eq_nil_iff]
      intro b hb
      rw [hall b hb]
      simp
    rw [hq]
    rfl

/-- Witness for C8: one brand qualifies with one record on the target
date, the other does not; a single sheet is produced, named by the
sanitized title and holding the single qualifying record. -/
theorem claim_C8_witness :
    save_to_excel "2025-10-11" exBrands = some [("CanonEOS5", [cardA])] :=
  (claim_C8 "2025-10-11" exBrands (by decide)).1.trans (by rfl)

/-- Claim C2: whenever the regex search extracts magnitude n and a unit
token from the phrase, the normalized timestamp is the capture instant
minus n of that unit - a fixed-length delta of 1, 60, 3600 or 86400 seconds
for second, minute, hour and day tokens (English or Arabic), and a
calendar-aware subtraction of n months for the month tokens.  Concretely:
normalizing 5 hours (in either case) at any instant t yields t minus 18000
seconds; normalizing 1 month from 2025-03-31 yields the valid date
2025-02-28 (day clamped), which differs from the fixed 30-day
approximation; and the fixed-length subtraction is genuine civil-time
subtraction, as checked across a year boundary. -/
theorem claim_C2 (t : DateTime) (phrase : String) (n : Nat) (u : String)
    (hp : reSearch phrase.data = some (n, u)) :
    ((u = "second" ∨ u = "ثانية") →
      scrape_publish_date phrase t = .ok (subSecondsDT t n)) ∧
    ((u = "minute" ∨ u = "دقيقة") →
      scrape_publish_date phrase t = .ok (subSecondsDT t (n * 60))) ∧
    ((u = "hour" ∨ u = "ساعة") →
      scrape_publish_date phrase t = .ok (subSecondsDT t (n * 3600))) ∧
    ((u = "day" ∨ u = "يوم") →
      scrape_publish_date phrase t = .ok (subSecondsDT t (n * 86400))) ∧
    ((u = "month" ∨ u = "شهر") →
      scrape_publish_date phrase t = .ok (subMonthsDT t n)) ∧
    scrape_publish_date "5 hours" t = .ok (subSecondsDT t 18000) ∧
    scrape_publish_date "5 HOURS" t = .ok (subSecondsDT t 18000) ∧
    scrape_publish_date "1 month" (DateTime.mk 2025 3 31 10 0 0) =
      .ok (DateTime.mk 2025 2 28 10 0 0) ∧
    ValidDate (subMonthsDT (DateTime.mk 2025 3 31 10 0 0) 1) ∧
    subMonthsDT (DateTime.mk 2025 3 31 10 0 0) 1 ≠
      subSecondsDT (DateTime.mk 2025 3 31 10 0 0) (30 * 86400) ∧
    subSecondsDT (DateTime.mk 2025 1 1 2 0 0) 18000 =
      DateTime.mk 2024 12 31 21 0 0 := by
  refine ⟨?_, ?_, ?_, ?_, ?_, ?_, ?_, by decide,
    by unfold ValidDate; decide, by decide, by decide⟩
  · rintro (rfl | rfl) <;> (unfold scrape_publish_date; rw [hp]) <;> rfl
  · rintro (rfl | rfl) <;> (unfold scrape_publish_date; rw [hp]) <;> rfl
  · rintro (rfl | rfl) <;> (unfold scrape_publish_date; rw [hp]) <;> rfl
  · rintro (rfl | rfl) <;> (unfold scrape_publish_date; rw [hp]) <;> rfl
  · rintro (rfl | rfl) <;> (unfold scrape_publish_date; rw [hp]) <;> rfl
  · rfl
  · rfl

/-- Witness for C2: the phrase 7 minutes parses to magnitude 7 and the
minute token, and normalizes to the instant minus 420 seconds. -/
theorem claim_C2_witness :
    scrape_publish_date "7 minutes" (DateTime.mk 2025 5 5 0 0 0) =
      .ok (subSecondsDT (DateTime.mk 2025 5 5 0 0 0) 420) :=
  (claim_C2 (DateTime.mk 2025 5 5 0 0 0) "7 minutes" 7 "minute"
    (by decide)).2.1 (Or.inl rfl)

end Scraper
